import Mathlib

/-!
Verification of the PyUpdater configuration-store stack
(`pyupdater/utils/storage.py` and `pyupdater/utils/config.py`) against its
natural-language specification.

The embedding models Python runtime values (`PyVal`), insertion-ordered
Python dictionaries as association lists (`AList`), the single JSON file on
disk (`DiskState`), and the three layers of the stack:

* `JSONStore` — the lazily loaded, dirty-tracked JSON document store;
* `Storage` — the process-wide shared registry (all attribute writes land
  on the *class* via the overridden `__setattr__`, so every instance shares
  one state; the model therefore carries a single `StorageState`);
* `Config` — the settings dict with `self.__dict__ = self`.
-/

namespace PyUpdaterSpec

/-- Python runtime values as they occur in the configuration store.  JSON
scalars, lists and dicts are modelled structurally; function/method objects
(`callable`), `JSONStore` instances and `Storage` instances are opaque tags,
which is all `_sanatize` and the save paths inspect of them. -/
inductive PyVal where
  | none
  | bool (b : Bool)
  | int (n : Int)
  | str (s : String)
  | list (xs : List PyVal)
  | dict (entries : List (String × PyVal))
  | callable (tag : String)
  | jsonStoreRef
  | storageRef

/-- An insertion-ordered Python dict, modelled as an association list.
`alSet` updates in place (keeping the original position) or appends,
exactly like CPython dict assignment. -/
abbrev AList := List (String × PyVal)

/-- Python dict assignment `d[k] = v`: replace the binding in place if the
key exists, otherwise append it. -/
def alSet : AList → String → PyVal → AList
  | [], k, v => [(k, v)]
  | (k', v') :: rest, k, v =>
    if k' = k then (k, v) :: rest else (k', v') :: alSet rest k v

/-- Python dict lookup `d.get(k)`: the first binding for `k`, if any. -/
def alGet : AList → String → Option PyVal
  | [], _ => Option.none
  | (k', v') :: rest, k => if k' = k then some v' else alGet rest k

/-- Python `k in d`. -/
def alHas (m : AList) (k : String) : Bool :=
  (alGet m k).isSome

/-- Python `del d[k]`: removes the binding for `k` (the model removes the
first one; keys are unique in every reachable state). -/
def alDel : AList → String → AList
  | [], _ => []
  | (k', v') :: rest, k =>
    if k' = k then rest else (k', v') :: alDel rest k

/-- Python `d.update(other)`: set every binding of `other` into `d`,
in order. -/
def alUpdate (m : AList) (other : AList) : AList :=
  other.foldl (fun acc kv => alSet acc kv.1 kv.2) m

/-- The keys of a dict, in insertion order. -/
def alKeys (m : AList) : List String :=
  m.map Prod.fst

/-- Python `str.isupper()` (over the ASCII range): at least one cased
character, and no cased character is lower-case.  Uncased characters such
as digits and underscores are ignored, so `"APP_NAME".isupper()` is true. -/
def pyIsUpper (s : String) : Bool :=
  s.data.any (fun c => c.isUpper || c.isLower) && s.data.all (fun c => !c.isLower)

/-- The typed error surface of the stack. -/
inductive PyErr where
  | keyError (k : String)
  | attributeError (name : String)
  | typeError (msg : String)
  | configError (msg : String)
  | ioError (msg : String)
  | jsonError (msg : String)

/-- State of the single JSON settings file on disk: absent, present but not
valid JSON, or present with a parsed top-level object. -/
inductive DiskState where
  | missing
  | malformed
  | content (doc : AList)

/-- Opening and JSON-parsing the settings file
(`io.open` + `json.load` in `JSONStore._load_data_from_disk`). -/
def readJSONFile : DiskState → Except PyErr AList
  | DiskState.missing => Except.error (PyErr.ioError "No such file or directory")
  | DiskState.malformed => Except.error (PyErr.jsonError "No JSON object could be decoded")
  | DiskState.content doc => Except.ok doc

/-- Keyword arguments passed to the json module (`json_kw`).  Their content
never touches the stored data; only emptiness (Python falsiness) and
equality are inspected, so they are modelled as string pairs. -/
abbrev JsonKw := List (String × String)

/-- Python `json_kw or default`: an absent or empty (falsy) dict selects
the default. -/
def jsonKwOr : Option JsonKw → JsonKw → JsonKw
  | Option.none, d => d
  | some [], d => d
  | some m, _ => m

/-- The in-memory state of `JSONStore` (storage.py, `JSONStore.__init__`). -/
structure JSONStore where
  path : String
  json_kw : JsonKw
  _data : AList
  _synced_json_kw : Option JsonKw
  _needs_sync : Bool
  _data_from_disk_loaded : Bool

/-- Construction `JSONStore(path, json_kw)`: empty data, nothing synced,
disk not read yet (construction performs no I/O). -/
def mkJSONStore (path : String) (json_kw : Option JsonKw := Option.none) : JSONStore :=
  { path := path
    json_kw := jsonKwOr json_kw []
    _data := []
    _synced_json_kw := Option.none
    _needs_sync := false
    _data_from_disk_loaded := false }

/-- The body of `JSONStore.__setitem__` once the lazy load has happened:
store the value and mark the store dirty. -/
def setItemRaw (s : JSONStore) (k : String) (v : PyVal) : JSONStore :=
  { s with _data := alSet s._data k v, _needs_sync := true }

/-- `JSONStore._load_data_from_disk`: mark the store loaded, then merge the
file's contents via `self.update(...)`, which routes every entry through
`__setitem__`.  Any read or parse failure is caught and only logged. -/
def _load_data_from_disk (s : JSONStore) (d : DiskState) : JSONStore :=
  let s' := { s with _data_from_disk_loaded := true }
  match readJSONFile d with
  | Except.ok doc => doc.foldl (fun acc kv => setItemRaw acc kv.1 kv.2) s'
  | Except.error _ => s'

/-- The lazy-load guard repeated at the top of every `JSONStore` method. -/
def ensureLoaded (s : JSONStore) (d : DiskState) : JSONStore :=
  if s._data_from_disk_loaded then s else _load_data_from_disk s d

/-- `JSONStore.__getitem__`: lazy load, then dict lookup
(raising `KeyError` when absent). -/
def jsGetItem (s : JSONStore) (d : DiskState) (k : String) :
    JSONStore × Except PyErr PyVal :=
  let s' := ensureLoaded s d
  match alGet s'._data k with
  | some v => (s', Except.ok v)
  | Option.none => (s', Except.error (PyErr.keyError k))

/-- `JSONStore.__setitem__`: lazy load, then insert/overwrite and mark
dirty; no disk write. -/
def jsSetItem (s : JSONStore) (d : DiskState) (k : String) (v : PyVal) : JSONStore :=
  setItemRaw (ensureLoaded s d) k v

/-- `JSONStore.__delitem__`: lazy load, then delete and mark dirty
(raising `KeyError` when absent, in which case the dirty flag is not
touched by the delete). -/
def jsDelItem (s : JSONStore) (d : DiskState) (k : String) :
    JSONStore × Except PyErr Unit :=
  let s' := ensureLoaded s d
  if alHas s'._data k then
    ({ s' with _data := alDel s'._data k, _needs_sync := true }, Except.ok ())
  else
    (s', Except.error (PyErr.keyError k))

/-- Whether a value is filtered out by `_sanatize` for being callable. -/
def isCallableVal : PyVal → Bool
  | PyVal.callable _ => true
  | _ => false

/-- Whether a value is filtered out by `_sanatize` for being a nested
`JSONStore`. -/
def isJSONStoreVal : PyVal → Bool
  | PyVal.jsonStoreRef => true
  | _ => false

/-- The reserved names dropped by `JSONStore._sanatize`. -/
def sanatizeReserved : List String :=
  ["__weakref__", "__module__", "__dict__", "__doc__"]

/-- Predicate deciding whether `_sanatize` keeps an entry. -/
def sanatizeKeep (kv : String × PyVal) : Bool :=
  !isCallableVal kv.2 && !isJSONStoreVal kv.2 && !sanatizeReserved.contains kv.1

/-- `JSONStore._sanatize`: drop callables, nested stores and the reserved
dunder names before serializing. -/
def _sanatize (data : AList) : AList :=
  data.filter sanatizeKeep

/-- The outcome of `JSONStore.sync`: the new store state, the new disk
state, and the returned boolean (true exactly when a disk write was
performed). -/
structure SyncResult where
  store : JSONStore
  disk : DiskState
  wrote : Bool

/-- `JSONStore.sync(json_kw, force)`: lazy load; resolve the json keyword
arguments; mark dirty when they differ from the ones last synced; return
`false` without touching the disk when neither dirty nor forced; otherwise
overwrite the whole file with the sanitized data and clear the dirty
flag. -/
def sync (s : JSONStore) (d : DiskState) (json_kw : Option JsonKw := Option.none)
    (force : Bool := false) : SyncResult :=
  let s₁ := ensureLoaded s d
  let jkw := jsonKwOr json_kw s₁.json_kw
  let s₂ := if s₁._synced_json_kw = some jkw then s₁ else { s₁ with _needs_sync := true }
  if !(s₂._needs_sync || force) then
    { store := s₂, disk := d, wrote := false }
  else
    { store := { s₂ with _synced_json_kw := some jkw, _needs_sync := false }
      disk := DiskState.content (_sanatize s₂._data)
      wrote := true }

/-! ### The shared registry (`Storage`)

`Storage.__setattr__` is overridden to `setattr(self.__class__, name, value)`,
so *every* attribute write — including the ones in `__init__` — lands on the
class object `Storage` itself, and instances carry no state of their own
(`__getattr__` reads `self.__class__.__dict__`).  The model therefore keeps a
single process-wide `StorageState`: the mutable class dict plus the backing
`JSONStore`. -/

/-- Modelled from the spec: `pyupdater/settings.py` is not among the sources;
the spec says construction resolves "a fixed on-disk directory ... and a fixed
filename inside it" (`settings.CONFIG_DATA_FOLDER`). -/
def CONFIG_DATA_FOLDER : String := ".pyupdater"

/-- Modelled from the spec: the fixed settings filename
(`settings.CONFIG_FILE_USER`, not among the sources). -/
def CONFIG_FILE_USER : String := "config.pyu"

/-- Modelled from the spec: the fixed registry record key for the settings
bundle (`settings.CONFIG_DB_KEY_APP_CONFIG`, not among the sources). -/
def CONFIG_DB_KEY_APP_CONFIG : String := "app_config"

/-- Modelled from the spec: the fixed registry record key for the
key-material record (`settings.CONFIG_DB_KEY_KEYPACK`, not among the
sources). -/
def CONFIG_DB_KEY_KEYPACK : String := "keypack"

/-- Modelled from the spec: the default application/company name
(`settings.GENERIC_APP_NAME`; the config.py comment says "PyUpdater App"
is used when left unset). -/
def GENERIC_APP_NAME : String := "PyUpdater App"

/-- Modelled from the spec: the default relative path of the derived
client-config artifact (`settings.DEFAULT_CLIENT_CONFIG`, a path-segment
sequence). -/
def DEFAULT_CLIENT_CONFIG : List String := ["client_config.py"]

/-- The contents of `Storage.__dict__` before any instance is constructed:
the methods defined in the class body plus the implicit class attributes.
`__dict__` and `__weakref__` are descriptor objects; they are modelled as
opaque callables, which is immaterial because `_sanatize` drops them by
name. -/
def storageBaseDict : AList :=
  [("__module__", PyVal.str "pyupdater.utils.storage"),
   ("__qualname__", PyVal.str "Storage"),
   ("__init__", PyVal.callable "__init__"),
   ("__getattr__", PyVal.callable "__getattr__"),
   ("__setattr__", PyVal.callable "__setattr__"),
   ("__delattr__", PyVal.callable "__delattr__"),
   ("__getitem__", PyVal.callable "__getitem__"),
   ("__setitem__", PyVal.callable "__setitem__"),
   ("_load_db", PyVal.callable "_load_db"),
   ("save", PyVal.callable "save"),
   ("load", PyVal.callable "load"),
   ("__dict__", PyVal.callable "attribute_of_Storage_objects"),
   ("__weakref__", PyVal.callable "attribute_of_Storage_objects"),
   ("__doc__", PyVal.none)]

/-- The process-wide state shared by all `Storage` instances: the class
dict (where every attribute write lands) and the backing `JSONStore`.
The class dict's `"db"` entry holds the opaque `jsonStoreRef` tag; the
store's actual state is the `db` field. -/
structure StorageState where
  classDict : AList
  db : JSONStore

/-- Python `x is False`, the reload guard `if self._loaded_db is False`. -/
def isPyFalse : Option PyVal → Bool
  | some (PyVal.bool false) => true
  | _ => false

/-- Python `x is True`, the guard `if self.load_config is True`. -/
def isPyTrue : Option PyVal → Bool
  | some (PyVal.bool true) => true
  | _ => false

/-- `Storage._load_db`: iterate the backing store (which lazily loads the
file) and `setattr(Storage, k, v)` each entry onto the class. -/
def storage_load_db (st : StorageState) (d : DiskState) : StorageState :=
  let db := ensureLoaded st.db d
  { classDict := alUpdate st.classDict db._data
    db := db }

/-- `Storage.__init__` with the default `refresh=True`: set `config_dir`,
`filename`, a *fresh* `JSONStore` as `db` and `_loaded_db` on the class
(every one of these assignments goes through the overridden
`__setattr__`), then set `_loaded_db = True` and run `_load_db`.
Directory creation is a filesystem side effect outside the modelled
settings file. -/
def storageInit (cwd : String) (cls : AList) (d : DiskState) : StorageState :=
  let config_dir := cwd ++ "/" ++ CONFIG_DATA_FOLDER
  let filename := config_dir ++ "/" ++ CONFIG_FILE_USER
  let cls₁ := alSet cls "config_dir" (PyVal.str config_dir)
  let cls₂ := alSet cls₁ "filename" (PyVal.str filename)
  let cls₃ := alSet cls₂ "db" PyVal.jsonStoreRef
  let cls₄ := alSet cls₃ "_loaded_db" (PyVal.bool false)
  let cls₅ := alSet cls₄ "_loaded_db" (PyVal.bool true)
  storage_load_db { classDict := cls₅, db := mkJSONStore filename } d

/-- `Storage.save(key, value)`: reload if `_loaded_db is False`; set the
key on the class; copy *every* entry of `Storage.__dict__` into the
backing store; sync the store to disk.  Returns the new shared state, the
new disk state and `sync`'s boolean. -/
def storageSave (st : StorageState) (d : DiskState) (key : String) (value : PyVal) :
    StorageState × DiskState × Bool :=
  let st₁ := if isPyFalse (alGet st.classDict "_loaded_db") then storage_load_db st d else st
  let cls := alSet st₁.classDict key value
  let db := cls.foldl (fun acc kv => jsSetItem acc d kv.1 kv.2) st₁.db
  let r := sync db d Option.none false
  ({ classDict := cls, db := r.store }, r.disk, r.wrote)

/-- `Storage.load(key)`: reload if `_loaded_db is False`, then
`Storage.__dict__.get(key)` — the stored value, or Python `None` when the
key is absent; no exception on a missing key. -/
def storageLoad (st : StorageState) (d : DiskState) (key : String) :
    StorageState × PyVal :=
  let st₁ := if isPyFalse (alGet st.classDict "_loaded_db") then storage_load_db st d else st
  (st₁, (alGet st₁.classDict key).getD PyVal.none)

/-! ### The settings object (`Config`)

`Config` subclasses `dict` and aliases `self.__dict__ = self`, so attribute
access and item access work on the very same mapping.  The model is that
mapping (`map`) plus the optional attached registry state. -/

/-- The state of one `Config` instance: its dict contents (which are also
its attribute namespace) and the attached shared registry, when the
instance was built with file access (`client=False`).  The `"db"` item of
`map` mirrors `storage`: `storageRef` when attached, `none` otherwise. -/
structure ConfigState where
  map : AList
  storage : Option StorageState

/-- The default template loaded by `Config.__postinit__`. -/
def configTemplate : AList :=
  [("APP_NAME", PyVal.str GENERIC_APP_NAME),
   ("CLIENT_CONFIG_PATH", PyVal.list (DEFAULT_CLIENT_CONFIG.map PyVal.str)),
   ("COMPANY_NAME", PyVal.str GENERIC_APP_NAME),
   ("PLUGIN_CONFIGS", PyVal.dict []),
   ("UPDATE_PATCHES", PyVal.bool true),
   ("MAX_DOWNLOAD_RETRIES", PyVal.int 3)]

/-- The upper-case-filtered export built by `Config.save_config`
(`out = {k: v for k, v in self.items() if k.isupper()}`). -/
def configSaveOut (c : ConfigState) : AList :=
  c.map.filter (fun kv => pyIsUpper kv.1)

/-- `Config._load_config`: raise `ConfigError` when no registry is
attached; read the settings record (an absent record is treated as an
empty dict, a non-dict record would fail at `.items()`); merge every
entry into the mapping; finally set `DATA_DIR` to the current working
directory. -/
def configLoadConfig (c : ConfigState) (d : DiskState) (cwd : String) :
    Except PyErr ConfigState :=
  match c.storage with
  | Option.none => Except.error (PyErr.configError "This object is configured with no file access")
  | some st =>
    let r := storageLoad st d CONFIG_DB_KEY_APP_CONFIG
    match r.2 with
    | PyVal.none =>
      Except.ok { map := alSet c.map "DATA_DIR" (PyVal.str cwd), storage := some r.1 }
    | PyVal.dict entries =>
      Except.ok { map := alSet (alUpdate c.map entries) "DATA_DIR" (PyVal.str cwd)
                  storage := some r.1 }
    | _ => Except.error (PyErr.attributeError "items")

/-- `Config.__init__(**kwargs)`: initialize the dict from the keyword
arguments; alias `self.__dict__ = self`; update with the default template;
store the `load_config` and `client` flags as items; when `client is
False` construct the shared registry (and run `_load_config` when
`load_config is True`), otherwise attach no registry and store `db =
None`. -/
def mkConfig (kwargs : AList) (cwd : String) (cls : AList) (d : DiskState) :
    Except PyErr ConfigState :=
  let m₀ : AList := kwargs
  let m₁ := alUpdate m₀ configTemplate
  let loadFlag := (alGet kwargs "load_config").getD (PyVal.bool false)
  let m₂ := alSet m₁ "load_config" loadFlag
  let clientFlag := (alGet kwargs "client").getD (PyVal.bool false)
  let m₃ := alSet m₂ "client" clientFlag
  if isPyFalse (some clientFlag) then
    let st := storageInit cwd cls d
    let c := { map := alSet m₃ "db" PyVal.storageRef, storage := some st }
    if isPyTrue (some loadFlag) then configLoadConfig c d cwd else Except.ok c
  else
    Except.ok { map := alSet m₃ "db" PyVal.none, storage := Option.none }

/-- Attribute names of an external source object, as `dir(obj)` enumerates
them for `Config.from_object`.  The object is modelled by its attribute
dict; inherited dunder attributes are never upper-case, so they cannot
affect the copied set. -/
def pyDir (obj : AList) : List String :=
  alKeys obj

/-- `Config.from_object(obj)`: raise `ConfigError` when `self.client is
False`; otherwise copy `getattr(obj, key)` for every `key` in `dir(obj)`
with `key.isupper()`, overwriting existing items. -/
def configFromObject (c : ConfigState) (obj : AList) : Except PyErr ConfigState :=
  if isPyFalse (alGet c.map "client") then
    Except.error (PyErr.configError "This object is not configured for client use")
  else
    Except.ok { c with
      map := (pyDir obj).foldl
        (fun m k => if pyIsUpper k then alSet m k ((alGet obj k).getD PyVal.none) else m)
        c.map }

/-- Python `repr()` of a stored value, used for values nested inside
containers (strings are modelled as always rendered with single quotes). -/
def pyRepr : PyVal → String
  | PyVal.none => "None"
  | PyVal.bool true => "True"
  | PyVal.bool false => "False"
  | PyVal.int n => toString n
  | PyVal.str s => "'" ++ s ++ "'"
  | PyVal.list xs =>
    "[" ++ String.intercalate ", " (xs.attach.map (fun x => pyRepr x.1)) ++ "]"
  | PyVal.dict es =>
    "\x7b" ++
      String.intercalate ", "
        (es.attach.map (fun kv => "'" ++ kv.1.1 ++ "': " ++ pyRepr kv.1.2)) ++
      "\x7d"
  | PyVal.callable tag => "<function " ++ tag ++ ">"
  | PyVal.jsonStoreRef => "<storage.JSONStore object>"
  | PyVal.storageRef => "<storage.Storage object>"
decreasing_by
  · have h := List.sizeOf_lt_of_mem x.2
    simp only [PyVal.list.sizeOf_spec]
    omega
  · have h := List.sizeOf_lt_of_mem kv.2
    obtain ⟨⟨k, v⟩, hmem⟩ := kv
    simp only [PyVal.dict.sizeOf_spec]
    simp only [Prod.mk.sizeOf_spec] at h
    omega

/-- Python `str()` of a stored value as interpolated by `str.format` in
`_write_config_py`: the text itself for strings, `repr` otherwise. -/
def pyStrOf : PyVal → String
  | PyVal.str s => s
  | v => pyRepr v

/-- One `"\t{} = '{}'\n"` line of the derived artifact
(`attr_str_format`). -/
def attrStrLine (name value : String) : String :=
  "\t" ++ name ++ " = '" ++ value ++ "'\n"

/-- One `"\t{} = {}\n"` line of the derived artifact (`attr_format`). -/
def attrLine (name value : String) : String :=
  "\t" ++ name ++ " = " ++ value ++ "\n"

/-- The text emitted by `_write_config_py` once the public key has been
resolved: the class header plus one conditionally included line per field,
in the fixed order of the source.  Note the `PUBLIC_KEY` line renders the
*fetched* `public_key`, not the `PUBLIC_KEY` item itself. -/
def writeConfigPyContent (m : AList) (publicKey : PyVal) : String :=
  let s₀ := "class ClientConfig(object):\n"
  let s₁ := match alGet m "APP_NAME" with
    | some v => s₀ ++ attrStrLine "APP_NAME" (pyStrOf v)
    | Option.none => s₀
  let s₂ := match alGet m "COMPANY_NAME" with
    | some v => s₁ ++ attrStrLine "COMPANY_NAME" (pyStrOf v)
    | Option.none => s₁
  let s₃ := match alGet m "UPDATE_URLS" with
    | some v => s₂ ++ attrLine "UPDATE_URLS" (pyStrOf v)
    | Option.none => s₂
  let s₄ := if alHas m "PUBLIC_KEY" then s₃ ++ attrStrLine "PUBLIC_KEY" (pyStrOf publicKey) else s₃
  match alGet m "MAX_DOWNLOAD_RETRIES" with
  | some v => s₄ ++ attrLine "MAX_DOWNLOAD_RETRIES" (pyStrOf v)
  | Option.none => s₄

/-- `Config._write_config_py`: fetch the key-material record
(`None` when `self.db is None`); when the record is absent substitute
`None` for the public key, but when it is present index
`keypack_data['client']['offline_public']`, which raises when the nested
path is absent; then assemble the artifact path from
`CLIENT_CONFIG_PATH` (an absent field raises `AttributeError`) and fully
rewrite the artifact file.  The result is the generated text. -/
def writeConfigPy (c : ConfigState) (d : DiskState) : Except PyErr String :=
  let keypack : PyVal :=
    match c.storage with
    | Option.none => PyVal.none
    | some st => (storageLoad st d CONFIG_DB_KEY_KEYPACK).2
  let pk : Except PyErr PyVal :=
    match keypack with
    | PyVal.none => Except.ok PyVal.none
    | PyVal.dict entries =>
      match alGet entries "client" with
      | Option.none => Except.error (PyErr.keyError "client")
      | some (PyVal.dict clientEntries) =>
        match alGet clientEntries "offline_public" with
        | Option.none => Except.error (PyErr.keyError "offline_public")
        | some v => Except.ok v
      | some _ => Except.error (PyErr.typeError "value is not subscriptable")
    | _ => Except.error (PyErr.typeError "value is not subscriptable")
  match pk with
  | Except.error e => Except.error e
  | Except.ok publicKey =>
    if alHas c.map "CLIENT_CONFIG_PATH" then
      Except.ok (writeConfigPyContent c.map publicKey)
    else
      Except.error (PyErr.attributeError "CLIENT_CONFIG_PATH")

/-- `Config.save_config`: raise `ConfigError` when no registry is
attached; otherwise filter the upper-case items, save them to the registry
under the fixed settings key (which always syncs the whole shared state to
disk), then regenerate the derived artifact.  The disk state is returned
alongside the outcome because the registry write happens *before*
`_write_config_py` — it persists even when artifact generation fails. -/
def configSaveConfig (c : ConfigState) (d : DiskState) :
    Except PyErr (ConfigState × String) × DiskState :=
  match c.storage with
  | Option.none =>
    (Except.error (PyErr.configError "This object is configured with no file access"), d)
  | some st =>
    let out := configSaveOut c
    let r := storageSave st d CONFIG_DB_KEY_APP_CONFIG (PyVal.dict out)
    let c' := { c with storage := some r.1 }
    ((writeConfigPy c' r.2.1).map (fun text => (c', text)), r.2.1)

/-! ### Association-list lemmas -/

theorem alGet_alSet (m : AList) (k k' : String) (v : PyVal) :
    alGet (alSet m k v) k' = if k = k' then some v else alGet m k' := by
  induction m with
  | nil => simp [alSet, alGet]
  | cons kv rest ih =>
    obtain ⟨k₀, v₀⟩ := kv
    by_cases h₀ : k₀ = k
    · subst h₀
      by_cases h₁ : k₀ = k'
      · subst h₁; simp [alSet, alGet]
      · simp [alSet, alGet, h₁]
    · by_cases h₁ : k₀ = k'
      · subst h₁
        have l1 : alGet (alSet ((k₀, v₀) :: rest) k v) k₀ = some v₀ := by
          simp [alSet, h₀, alGet]
        have l2 : alGet ((k₀, v₀) :: rest) k₀ = some v₀ := by simp [alGet]
        rw [l1, if_neg (fun h => h₀ h.symm), l2]
      · simp [alSet, alGet, h₀, h₁, ih]

theorem alGet_alSet_self (m : AList) (k : String) (v : PyVal) :
    alGet (alSet m k v) k = some v := by
  simp [alGet_alSet]

theorem alGet_alSet_ne (m : AList) (k k' : String) (v : PyVal) (h : k ≠ k') :
    alGet (alSet m k v) k' = alGet m k' := by
  simp [alGet_alSet, h]

theorem alSet_ne_nil (m : AList) (k : String) (v : PyVal) : alSet m k v ≠ [] := by
  cases m with
  | nil => simp [alSet]
  | cons kv rest =>
    simp only [alSet]
    split <;> simp

theorem alGet_eq_none_iff (m : AList) (k : String) :
    alGet m k = Option.none ↔ ∀ kv ∈ m, kv.1 ≠ k := by
  induction m with
  | nil => simp [alGet]
  | cons kv rest ih =>
    obtain ⟨k₀, v₀⟩ := kv
    by_cases h₀ : k₀ = k
    · subst h₀; simp [alGet]
    · simp [alGet, h₀, ih]

theorem alKeys_alSet (m : AList) (k : String) (v : PyVal) :
    alKeys (alSet m k v) = if alHas m k then alKeys m else alKeys m ++ [k] := by
  induction m with
  | nil => simp [alSet, alKeys, alHas, alGet]
  | cons kv rest ih =>
    obtain ⟨k₀, v₀⟩ := kv
    by_cases h₀ : k₀ = k
    · subst h₀; simp [alSet, alKeys, alHas, alGet]
    · have hcons : alHas ((k₀, v₀) :: rest) k = alHas rest k := by
        simp [alHas, alGet, h₀]
      by_cases h₁ : alHas rest k = true
      · simp [alSet, h₀, alKeys, hcons, h₁]
        simpa [alKeys, h₁] using ih
      · have h₁' : alHas rest k = false := by simpa using h₁
        simp [alSet, h₀, alKeys, hcons, h₁']
        simpa [alKeys, h₁'] using ih

theorem nodup_alSet (m : AList) (k : String) (v : PyVal)
    (h : (alKeys m).Nodup) : (alKeys (alSet m k v)).Nodup := by
  rw [alKeys_alSet]
  by_cases hk : alHas m k = true
  · simp [hk, h]
  · have hk' : alHas m k = false := by simpa using hk
    simp only [hk', Bool.false_eq_true, if_false]
    rw [List.nodup_append]
    refine ⟨h, List.nodup_singleton k, ?_⟩
    intro a ha hb
    simp only [List.mem_singleton] at hb
    subst hb
    have hnone : alGet m a = Option.none := by
      cases hg : alGet m a with
      | none => rfl
      | some v' => simp [alHas, hg] at hk'
    rw [alGet_eq_none_iff] at hnone
    simp only [alKeys, List.mem_map] at ha
    obtain ⟨kv, hkv, hfst⟩ := ha
    exact (hnone kv hkv) hfst

theorem alUpdate_nil (m : AList) : alUpdate m [] = m := rfl

theorem alUpdate_cons (m : AList) (kv : String × PyVal) (l : List (String × PyVal)) :
    alUpdate m (kv :: l) = alUpdate (alSet m kv.1 kv.2) l := rfl

theorem alGet_alUpdate (m l : AList) (k : String) (hl : (alKeys l).Nodup) :
    alGet (alUpdate m l) k =
      match alGet l k with
      | some v => some v
      | Option.none => alGet m k := by
  induction l generalizing m with
  | nil => simp [alUpdate, alGet]
  | cons kv rest ih =>
    obtain ⟨k₀, v₀⟩ := kv
    simp only [alKeys, List.map_cons, List.nodup_cons] at hl
    rw [alUpdate_cons]
    by_cases h₀ : k₀ = k
    · subst h₀
      have hrest : alGet rest k₀ = Option.none := by
        rw [alGet_eq_none_iff]
        intro kv hkv
        intro hc
        exact hl.1 (hc ▸ List.mem_map_of_mem Prod.fst hkv)
      rw [ih _ hl.2]
      simp [alGet, hrest, alGet_alSet_self]
    · rw [ih _ hl.2]
      simp only [alGet, if_neg h₀]
      cases hrk : alGet rest k <;> simp [alGet_alSet_ne _ _ _ _ h₀]

theorem nodup_alUpdate (m l : AList) (h : (alKeys m).Nodup) :
    (alKeys (alUpdate m l)).Nodup := by
  induction l generalizing m with
  | nil => simpa [alUpdate]
  | cons kv rest ih =>
    rw [alUpdate_cons]
    exact ih _ (nodup_alSet _ _ _ h)

theorem alGet_filter_of_keep (p : String × PyVal → Bool) (m : AList) (k : String)
    (v : PyVal) (h : alGet m k = some v) (hp : p (k, v) = true) :
    alGet (m.filter p) k = some v := by
  induction m with
  | nil => simp [alGet] at h
  | cons kv rest ih =>
    obtain ⟨k₀, v₀⟩ := kv
    by_cases h₀ : k₀ = k
    · subst h₀
      simp only [alGet, if_pos rfl] at h
      obtain rfl : v₀ = v := by injection h
      simp [List.filter_cons, hp, alGet]
    · simp only [alGet, if_neg h₀] at h
      by_cases hpk : p (k₀, v₀)
      · simp [List.filter_cons, hpk, alGet, h₀, ih h]
      · simp [List.filter_cons, hpk, ih h]

theorem alGet_filter_keyPred (q : String → Bool) (m : AList) (k : String) :
    alGet (m.filter (fun kv => q kv.1)) k =
      if q k then alGet m k else Option.none := by
  induction m with
  | nil => simp [alGet]
  | cons kv rest ih =>
    obtain ⟨k₀, v₀⟩ := kv
    by_cases h₀ : k₀ = k
    · subst h₀
      by_cases hq : q k₀ <;> simp [List.filter_cons, hq, alGet, ih]
    · by_cases hq : q k₀ <;> simp [List.filter_cons, hq, alGet, h₀, ih]

theorem nodup_filter (p : String × PyVal → Bool) (m : AList)
    (h : (alKeys m).Nodup) : (alKeys (m.filter p)).Nodup := by
  have hsub : (alKeys (m.filter p)).Sublist (alKeys m) :=
    List.Sublist.map Prod.fst (List.filter_sublist m)
  exact h.sublist hsub

/-! ### JSONStore structural lemmas -/

/-- The document merged by the lazy load: the parsed file, or nothing when
reading or parsing failed. -/
def loadedDoc : DiskState → AList
  | DiskState.content doc => doc
  | _ => []

/-- Whether the pending lazy load would mark the store dirty: the store has
not loaded yet and the file parses to at least one entry (the merge routes
entries through `__setitem__`, which sets `_needs_sync`). -/
def loadWillDirty (s : JSONStore) (d : DiskState) : Bool :=
  !s._data_from_disk_loaded && !(loadedDoc d).isEmpty

theorem foldl_setItemRaw_spec (doc : AList) (s : JSONStore) :
    doc.foldl (fun acc kv => setItemRaw acc kv.1 kv.2) s =
      { s with _data := alUpdate s._data doc,
               _needs_sync := s._needs_sync || !doc.isEmpty } := by
  induction doc generalizing s with
  | nil => simp [alUpdate]
  | cons kv rest ih =>
    rw [List.foldl_cons, ih]
    simp [setItemRaw, alUpdate_cons]

theorem load_data_spec (s : JSONStore) (d : DiskState) :
    _load_data_from_disk s d =
      { s with _data := alUpdate s._data (loadedDoc d),
               _needs_sync := s._needs_sync || !(loadedDoc d).isEmpty,
               _data_from_disk_loaded := true } := by
  cases d <;> simp [_load_data_from_disk, readJSONFile, loadedDoc, alUpdate,
    foldl_setItemRaw_spec]

theorem ensureLoaded_spec (s : JSONStore) (d : DiskState) :
    ensureLoaded s d =
      if s._data_from_disk_loaded then s
      else { s with _data := alUpdate s._data (loadedDoc d),
                    _needs_sync := s._needs_sync || !(loadedDoc d).isEmpty,
                    _data_from_disk_loaded := true } := by
  by_cases h : s._data_from_disk_loaded <;> simp [ensureLoaded, h, load_data_spec]

theorem ensureLoaded_loaded (s : JSONStore) (d : DiskState) :
    (ensureLoaded s d)._data_from_disk_loaded = true := by
  rw [ensureLoaded_spec]; split <;> simp_all

theorem ensureLoaded_needs (s : JSONStore) (d : DiskState) :
    (ensureLoaded s d)._needs_sync = (s._needs_sync || loadWillDirty s d) := by
  rw [ensureLoaded_spec]
  by_cases h : s._data_from_disk_loaded <;> simp [h, loadWillDirty]

theorem ensureLoaded_json_kw (s : JSONStore) (d : DiskState) :
    (ensureLoaded s d).json_kw = s.json_kw := by
  rw [ensureLoaded_spec]; split <;> rfl

theorem ensureLoaded_synced (s : JSONStore) (d : DiskState) :
    (ensureLoaded s d)._synced_json_kw = s._synced_json_kw := by
  rw [ensureLoaded_spec]; split <;> rfl

theorem ensureLoaded_of_loaded (s : JSONStore) (d : DiskState)
    (h : s._data_from_disk_loaded = true) : ensureLoaded s d = s := by
  simp [ensureLoaded, h]

theorem sync_post (s : JSONStore) (d : DiskState) (jk : Option JsonKw) (f : Bool) :
    (sync s d jk f).store._data_from_disk_loaded = true ∧
    (sync s d jk f).store._needs_sync = false ∧
    (sync s d jk f).store.json_kw = s.json_kw ∧
    (sync s d jk f).store._synced_json_kw = some (jsonKwOr jk s.json_kw) := by
  have hload := ensureLoaded_loaded s d
  have hkw := ensureLoaded_json_kw s d
  simp only [sync]
  by_cases hsy :
      (ensureLoaded s d)._synced_json_kw = some (jsonKwOr jk (ensureLoaded s d).json_kw)
  · rw [if_pos hsy]
    by_cases hns : ((ensureLoaded s d)._needs_sync || f) = true
    · rw [if_neg (by simp [hns])]
      exact ⟨hload, rfl, hkw, by simp [hkw]⟩
    · rw [if_pos (by simp [hns])]
      have hns' : (ensureLoaded s d)._needs_sync = false :=
        (Bool.or_eq_false_iff.mp (by simpa using hns)).1

      exact ⟨hload, hns', hkw, by rw [hsy, hkw]⟩
  · rw [if_neg hsy]
    rw [if_neg (by simp)]
    exact ⟨hload, rfl, hkw, by simp [hkw]⟩

/-- Operations a caller can perform on a `JSONStore` (the disk is only ever
rewritten by `sync`). -/
inductive JOp where
  | set (k : String) (v : PyVal)
  | del (k : String)
  | get (k : String)
  | syncOp (jk : Option JsonKw) (force : Bool)

/-- Run a sequence of operations against a store and the disk. -/
def runOps : JSONStore → DiskState → List JOp → JSONStore × DiskState
  | s, d, [] => (s, d)
  | s, d, JOp.set k v :: rest => runOps (jsSetItem s d k v) d rest
  | s, d, JOp.del k :: rest => runOps (jsDelItem s d k).1 d rest
  | s, d, JOp.get k :: rest => runOps (jsGetItem s d k).1 d rest
  | s, d, JOp.syncOp jk f :: rest =>
    let r := sync s d jk f
    runOps r.store r.disk rest

/-- The claim's notion of the dirty flag, following the spec's words: true
iff the entries mapping has been mutated by a `set` or a (successful)
`delete` since the last successful (disk-writing) sync. -/
def mutatedSinceLastSync : JSONStore → DiskState → Bool → List JOp → Bool
  | _, _, m, [] => m
  | s, d, _, JOp.set k v :: rest => mutatedSinceLastSync (jsSetItem s d k v) d true rest
  | s, d, m, JOp.del k :: rest =>
    let r := jsDelItem s d k
    mutatedSinceLastSync r.1 d
      (m || (match r.2 with | Except.ok _ => true | Except.error _ => false)) rest
  | s, d, m, JOp.get k :: rest => mutatedSinceLastSync (jsGetItem s d k).1 d m rest
  | s, d, m, JOp.syncOp jk f :: rest =>
    let r := sync s d jk f
    mutatedSinceLastSync r.store r.disk (if r.wrote then false else m) rest

/-- What the dirty flag actually tracks: additionally to caller mutations,
the lazy load itself marks the store dirty whenever it merges at least one
entry from disk, because `_load_data_from_disk` routes the file contents
through `__setitem__` via `self.update(...)`. -/
def dirtyModel : JSONStore → DiskState → Bool → List JOp → Bool
  | _, _, m, [] => m
  | s, d, _, JOp.set k v :: rest => dirtyModel (jsSetItem s d k v) d true rest
  | s, d, m, JOp.del k :: rest =>
    let r := jsDelItem s d k
    dirtyModel r.1 d
      ((m || loadWillDirty s d) ||
        (match r.2 with | Except.ok _ => true | Except.error _ => false)) rest
  | s, d, m, JOp.get k :: rest =>
    dirtyModel (jsGetItem s d k).1 d (m || loadWillDirty s d) rest
  | s, d, m, JOp.syncOp jk f :: rest =>
    let r := sync s d jk f
    dirtyModel r.store r.disk (if r.wrote then false else m || loadWillDirty s d) rest

theorem jsGetItem_fst (s : JSONStore) (d : DiskState) (k : String) :
    (jsGetItem s d k).1 = ensureLoaded s d := by
  simp only [jsGetItem]
  cases h : alGet (ensureLoaded s d)._data k <;> simp [h]

theorem jsDelItem_needs (s : JSONStore) (d : DiskState) (k : String) :
    (jsDelItem s d k).1._needs_sync =
      ((s._needs_sync || loadWillDirty s d) ||
        (match (jsDelItem s d k).2 with
         | Except.ok _ => true
         | Except.error _ => false)) := by
  unfold jsDelItem
  by_cases h : alHas (ensureLoaded s d)._data k = true
  · simp [h]
  · have h' : alHas (ensureLoaded s d)._data k = false := by simpa using h
    simp [h', ensureLoaded_needs]

theorem sync_nowrote (s : JSONStore) (d : DiskState) (jk : Option JsonKw) (f : Bool)
    (h : (sync s d jk f).wrote = false) :
    (s._needs_sync || loadWillDirty s d) = false := by
  rw [← ensureLoaded_needs]
  by_contra hne
  have hn : (ensureLoaded s d)._needs_sync = true := by
    cases hb : (ensureLoaded s d)._needs_sync
    · exact absurd hb hne
    · rfl
  revert h
  simp only [sync]
  by_cases hsy :
      (ensureLoaded s d)._synced_json_kw = some (jsonKwOr jk (ensureLoaded s d).json_kw)
  · rw [if_pos hsy, if_neg (by simp [hn])]
    simp
  · rw [if_neg hsy, if_neg (by simp)]
    simp

theorem dirty_flag_tracks (ops : List JOp) (s : JSONStore) (d : DiskState) :
    (runOps s d ops).1._needs_sync = dirtyModel s d s._needs_sync ops := by
  induction ops generalizing s d with
  | nil => rfl
  | cons op rest ih =>
    cases op with
    | set k v =>
      rw [show runOps s d (JOp.set k v :: rest) = runOps (jsSetItem s d k v) d rest from rfl,
        ih]
      rw [show dirtyModel s d s._needs_sync (JOp.set k v :: rest) =
            dirtyModel (jsSetItem s d k v) d true rest from rfl]
      rfl
    | del k =>
      rw [show runOps s d (JOp.del k :: rest) = runOps (jsDelItem s d k).1 d rest from rfl,
        ih]
      rw [show dirtyModel s d s._needs_sync (JOp.del k :: rest) =
            dirtyModel (jsDelItem s d k).1 d
              ((s._needs_sync || loadWillDirty s d) ||
                (match (jsDelItem s d k).2 with
                 | Except.ok _ => true
                 | Except.error _ => false)) rest from rfl]
      rw [jsDelItem_needs]
    | get k =>
      rw [show runOps s d (JOp.get k :: rest) = runOps (jsGetItem s d k).1 d rest from rfl,
        ih]
      rw [show dirtyModel s d s._needs_sync (JOp.get k :: rest) =
            dirtyModel (jsGetItem s d k).1 d (s._needs_sync || loadWillDirty s d) rest
            from rfl]
      rw [jsGetItem_fst, ensureLoaded_needs]
    | syncOp jk f =>
      rw [show runOps s d (JOp.syncOp jk f :: rest) =
            runOps (sync s d jk f).store (sync s d jk f).disk rest from rfl, ih]
      rw [show dirtyModel s d s._needs_sync (JOp.syncOp jk f :: rest) =
            dirtyModel (sync s d jk f).store (sync s d jk f).disk
              (if (sync s d jk f).wrote then false
               else s._needs_sync || loadWillDirty s d) rest from rfl]
      have hfix : (sync s d jk f).store._needs_sync =
          (if (sync s d jk f).wrote then false
           else s._needs_sync || loadWillDirty s d) := by
        cases hw : (sync s d jk f).wrote
        · simp [sync_nowrote s d jk f hw, (sync_post s d jk f).2.1]
        · simp [(sync_post s d jk f).2.1]
      rw [hfix]

/-- C5 (counterexample): the dirty flag is *not* equivalent to "mutated by
set or delete since the last successful sync".  On a fresh store over a
disk file containing one entry, a single `get` — no set, no delete —
leaves `_needs_sync = true`, because the lazy load routes the file's
entries through `__setitem__`; the claim's own tracker says `false`. -/
theorem dirty_iff_mutated_counterexample :
    ((runOps (mkJSONStore "config.pyu") (DiskState.content [("a", PyVal.int 1)])
        [JOp.get "a"]).1._needs_sync = true) ∧
    (mutatedSinceLastSync (mkJSONStore "config.pyu")
        (DiskState.content [("a", PyVal.int 1)]) false [JOp.get "a"] = false) :=
  ⟨rfl, rfl⟩

/-- C5 (amended): for every `JSONStore` and every operation sequence, the
dirty flag `_needs_sync` is true iff, since the last disk-writing sync (or
construction), the entries were mutated by a set or a successful delete,
*or* the lazy disk load merged at least one entry from the file — the lazy
load passes file entries through `__setitem__`, which marks the store
dirty.  `dirtyModel` is exactly this characterization. -/
theorem dirty_flag_characterization (path : String) (jk : Option JsonKw)
    (d : DiskState) (ops : List JOp) :
    (runOps (mkJSONStore path jk) d ops).1._needs_sync =
      dirtyModel (mkJSONStore path jk) d false ops :=
  dirty_flag_tracks ops (mkJSONStore path jk) d

/-- C4: calling `sync(force=false)` twice in a row with no intervening
mutation performs at most the first call's disk write: the second call
returns `false` and leaves both the disk and the store untouched.  (The
first call may write — on a fresh store it always does, because
`_synced_json_kw` starts as `None` and differs from the resolved keyword
arguments.) -/
theorem sync_twice_second_is_noop (s : JSONStore) (d : DiskState) :
    (sync (sync s d Option.none false).store (sync s d Option.none false).disk
        Option.none false).wrote = false ∧
    (sync (sync s d Option.none false).store (sync s d Option.none false).disk
        Option.none false).disk = (sync s d Option.none false).disk ∧
    (sync (sync s d Option.none false).store (sync s d Option.none false).disk
        Option.none false).store = (sync s d Option.none false).store := by
  obtain ⟨h1, h2, h3, h4⟩ := sync_post s d Option.none false
  generalize hgen : sync s d Option.none false = r at *
  have hsy : r.store._synced_json_kw = some (jsonKwOr Option.none r.store.json_kw) := by
    rw [h3]; exact h4
  simp only [sync]
  rw [ensureLoaded_of_loaded _ _ h1]
  rw [if_pos hsy, if_pos (by simp [h2])]
  exact ⟨rfl, rfl, rfl⟩

/-- C8: a failure of the lazy load from disk (missing file, malformed
JSON) is caught inside `_load_data_from_disk`; the store behaves exactly
as if the file had parsed to an empty document, every triggering operation
returns the same result as on an empty store, and no load error ever
reaches the caller.  (Construction itself performs no I/O at all, so it
cannot fail either.) -/
theorem load_failure_graceful (s : JSONStore) (d : DiskState) (e : PyErr)
    (h : readJSONFile d = Except.error e) :
    _load_data_from_disk s d = _load_data_from_disk s (DiskState.content []) ∧
    (_load_data_from_disk s d)._data = s._data ∧
    (∀ k, jsGetItem s d k = jsGetItem s (DiskState.content []) k) ∧
    (∀ k v, jsSetItem s d k v = jsSetItem s (DiskState.content []) k v) ∧
    (∀ k, jsDelItem s d k = jsDelItem s (DiskState.content []) k) ∧
    (∀ jk f, (sync s d jk f).store = (sync s (DiskState.content []) jk f).store ∧
      (sync s d jk f).wrote = (sync s (DiskState.content []) jk f).wrote) := by
  have hdoc : loadedDoc d = [] := by
    cases d with
    | missing => rfl
    | malformed => rfl
    | content doc => simp [readJSONFile] at h
  have hl : _load_data_from_disk s d = _load_data_from_disk s (DiskState.content []) := by
    rw [load_data_spec, load_data_spec, hdoc]
    rfl
  have he : ensureLoaded s d = ensureLoaded s (DiskState.content []) := by
    unfold ensureLoaded
    rw [hl]
  refine ⟨hl, ?_, fun k => by unfold jsGetItem; rw [he],
    fun k v => by unfold jsSetItem; rw [he],
    fun k => by unfold jsDelItem; rw [he],
    fun jk f => by
      simp only [sync]
      rw [he]
      refine ⟨?_, ?_⟩ <;> (split <;> (try split) <;> rfl)⟩
  rw [hl]
  rfl

/-- Concrete instantiation of `load_failure_graceful` at a missing file. -/
theorem load_failure_graceful_witness :
    readJSONFile DiskState.missing =
      Except.error (PyErr.ioError "No such file or directory") ∧
    _load_data_from_disk (mkJSONStore "config.pyu") DiskState.missing =
      _load_data_from_disk (mkJSONStore "config.pyu") (DiskState.content []) :=
  ⟨rfl,
    (load_failure_graceful (mkJSONStore "config.pyu") DiskState.missing
      (PyErr.ioError "No such file or directory") rfl).1⟩

/-! ### Storage-layer lemmas -/

theorem foldl_jsSetItem_spec (cls : AList) (db : JSONStore) (d : DiskState)
    (h : db._data_from_disk_loaded = true) :
    cls.foldl (fun acc kv => jsSetItem acc d kv.1 kv.2) db =
      { db with _data := alUpdate db._data cls,
                _needs_sync := db._needs_sync || !cls.isEmpty } := by
  induction cls generalizing db with
  | nil => simp [alUpdate]
  | cons kv rest ih =>
    rw [List.foldl_cons]
    have hset : jsSetItem db d kv.1 kv.2 =
        { db with _data := alSet db._data kv.1 kv.2, _needs_sync := true } := by
      unfold jsSetItem
      rw [ensureLoaded_of_loaded _ _ h]
      rfl
    rw [hset, ih { db with _data := alSet db._data kv.1 kv.2, _needs_sync := true } h]
    simp [alUpdate_cons]

theorem sync_dirty_spec (db : JSONStore) (d : DiskState)
    (hloaded : db._data_from_disk_loaded = true)
    (hdirty : db._needs_sync = true) :
    sync db d Option.none false =
      { store := { db with _synced_json_kw := some db.json_kw, _needs_sync := false },
        disk := DiskState.content (_sanatize db._data),
        wrote := true } := by
  simp only [sync]
  rw [ensureLoaded_of_loaded _ _ hloaded]
  by_cases hsy : db._synced_json_kw = some (jsonKwOr Option.none db.json_kw)
  · rw [if_pos hsy, if_neg (by simp [hdirty])]
    rfl
  · rw [if_neg hsy, if_neg (by simp)]
    rfl

theorem storageSave_spec (st : StorageState) (d : DiskState) (k : String) (v : PyVal)
    (hflag : isPyFalse (alGet st.classDict "_loaded_db") = false)
    (hloaded : st.db._data_from_disk_loaded = true) :
    storageSave st d k v =
      ({ classDict := alSet st.classDict k v,
         db := { path := st.db.path, json_kw := st.db.json_kw,
                 _data := alUpdate st.db._data (alSet st.classDict k v),
                 _synced_json_kw := some st.db.json_kw,
                 _needs_sync := false,
                 _data_from_disk_loaded := true } },
       DiskState.content (_sanatize (alUpdate st.db._data (alSet st.classDict k v))),
       true) := by
  have hne : (alSet st.classDict k v).isEmpty = false := by
    cases hm : alSet st.classDict k v with
    | nil => exact absurd hm (alSet_ne_nil _ _ _)
    | cons a l => rfl
  simp only [storageSave]
  rw [if_neg (by simp [hflag])]
  rw [foldl_jsSetItem_spec _ _ _ hloaded]
  rw [sync_dirty_spec
    { st.db with _data := alUpdate st.db._data (alSet st.classDict k v),
                 _needs_sync := st.db._needs_sync || !(alSet st.classDict k v).isEmpty }
    d hloaded (by simp [hne])]
  simp [hloaded]

/-- Run a sequence of `save(key, value)` calls against the shared state.
Since `Storage.__setattr__` writes to the class, every instance shares one
state; it does not matter which instance issues each save. -/
def runSaves : StorageState → DiskState → List (String × PyVal) → StorageState × DiskState
  | st, d, [] => (st, d)
  | st, d, kv :: rest =>
    let r := storageSave st d kv.1 kv.2
    runSaves r.1 r.2.1 rest

/-- The value most recently saved for a key by a sequence of saves. -/
def lastSave : List (String × PyVal) → String → Option PyVal
  | [], _ => Option.none
  | kv :: rest, k =>
    match lastSave rest k with
    | some v => some v
    | Option.none => if kv.1 = k then some kv.2 else Option.none

/-- Invariant of every reachable shared-registry state: the `_loaded_db`
class attribute is not Python `False` (so no reload is triggered), the
backing store has performed its lazy load, and the class dict's keys are
unique. -/
def StorageInv (st : StorageState) : Prop :=
  isPyFalse (alGet st.classDict "_loaded_db") = false ∧
  st.db._data_from_disk_loaded = true ∧
  (alKeys st.classDict).Nodup

theorem storageSave_inv (st : StorageState) (d : DiskState) (k : String) (v : PyVal)
    (h : StorageInv st) (hk : k ≠ "_loaded_db") :
    StorageInv (storageSave st d k v).1 := by
  rw [storageSave_spec st d k v h.1 h.2.1]
  refine ⟨?_, rfl, nodup_alSet _ _ _ h.2.2⟩
  rw [show ({ classDict := alSet st.classDict k v, db := _ } : StorageState).classDict =
    alSet st.classDict k v from rfl]
  rw [alGet_alSet_ne _ _ _ _ hk]
  exact h.1

theorem runSaves_inv (saves : List (String × PyVal)) (st : StorageState) (d : DiskState)
    (h : StorageInv st) (hks : ∀ kv ∈ saves, kv.1 ≠ "_loaded_db") :
    StorageInv (runSaves st d saves).1 := by
  induction saves generalizing st d with
  | nil => exact h
  | cons kv rest ih =>
    exact ih _ _ (storageSave_inv st d kv.1 kv.2 h (hks kv (by simp)))
      (fun kv' h' => hks kv' (by simp [h']))

theorem runSaves_classGet (saves : List (String × PyVal)) (st : StorageState)
    (d : DiskState) (k : String) (h : StorageInv st)
    (hks : ∀ kv ∈ saves, kv.1 ≠ "_loaded_db") :
    alGet (runSaves st d saves).1.classDict k =
      (match lastSave saves k with
       | some v => some v
       | Option.none => alGet st.classDict k) := by
  induction saves generalizing st d with
  | nil => rfl
  | cons kv rest ih =>
    rw [show runSaves st d (kv :: rest) =
      runSaves (storageSave st d kv.1 kv.2).1 (storageSave st d kv.1 kv.2).2.1 rest
      from rfl]
    rw [ih _ _ (storageSave_inv st d kv.1 kv.2 h (hks kv (by simp)))
      (fun kv' h' => hks kv' (by simp [h']))]
    rw [show lastSave (kv :: rest) k =
      (match lastSave rest k with
       | some v => some v
       | Option.none => if kv.1 = k then some kv.2 else Option.none) from rfl]
    cases lastSave rest k with
    | some v => rfl
    | none =>
      rw [storageSave_spec st d kv.1 kv.2 h.1 h.2.1]
      by_cases hk : kv.1 = k
      · subst hk
        simp [alGet_alSet_self]
      · simp [alGet_alSet_ne _ _ _ _ hk, hk]

theorem lastSave_eq_none (saves : List (String × PyVal)) (k : String)
    (h : ∀ kv ∈ saves, kv.1 ≠ k) : lastSave saves k = Option.none := by
  induction saves with
  | nil => rfl
  | cons kv rest ih =>
    rw [show lastSave (kv :: rest) k =
      (match lastSave rest k with
       | some v => some v
       | Option.none => if kv.1 = k then some kv.2 else Option.none) from rfl]
    rw [ih (fun kv' h' => h kv' (by simp [h']))]
    simp [h kv (by simp)]

theorem runSaves_final (saves : List (String × PyVal)) (st : StorageState) (d : DiskState)
    (hinv : StorageInv st) (hks : ∀ kv ∈ saves, kv.1 ≠ "_loaded_db") (hne : saves ≠ []) :
    (runSaves st d saves).2 =
      DiskState.content (_sanatize (runSaves st d saves).1.db._data) ∧
    (∀ j w, alGet (runSaves st d saves).1.classDict j = some w →
      alGet (runSaves st d saves).1.db._data j = some w) := by
  induction saves generalizing st d with
  | nil => exact absurd rfl hne
  | cons kv rest ih =>
    rw [show runSaves st d (kv :: rest) =
      runSaves (storageSave st d kv.1 kv.2).1 (storageSave st d kv.1 kv.2).2.1 rest
      from rfl]
    by_cases hr : rest = []
    · subst hr
      rw [show runSaves (storageSave st d kv.1 kv.2).1 (storageSave st d kv.1 kv.2).2.1 [] =
        ((storageSave st d kv.1 kv.2).1, (storageSave st d kv.1 kv.2).2.1) from rfl]
      rw [storageSave_spec st d kv.1 kv.2 hinv.1 hinv.2.1]
      refine ⟨rfl, ?_⟩
      intro j w hw
      have hw' : alGet (alSet st.classDict kv.1 kv.2) j = some w := hw
      show alGet (alUpdate st.db._data (alSet st.classDict kv.1 kv.2)) j = some w
      rw [alGet_alUpdate _ _ _ (nodup_alSet _ _ _ hinv.2.2), hw']
    · exact ih _ _ (storageSave_inv st d kv.1 kv.2 hinv (hks kv (by simp)))
        (fun kv' h' => hks kv' (by simp [h'])) hr

theorem storageInit_facts (cwd : String) :
    StorageInv (storageInit cwd storageBaseDict DiskState.missing) ∧
    alGet (storageInit cwd storageBaseDict DiskState.missing).classDict "config_dir" =
      some (PyVal.str (cwd ++ "/" ++ CONFIG_DATA_FOLDER)) ∧
    alGet (storageInit cwd storageBaseDict DiskState.missing).classDict "filename" =
      some (PyVal.str (cwd ++ "/" ++ CONFIG_DATA_FOLDER ++ "/" ++ CONFIG_FILE_USER)) ∧
    alGet (storageInit cwd storageBaseDict DiskState.missing).classDict "_loaded_db" =
      some (PyVal.bool true) := by
  refine ⟨⟨rfl, rfl, ?_⟩, rfl, rfl, rfl⟩
  have hkeys : alKeys (storageInit cwd storageBaseDict DiskState.missing).classDict =
      ["__module__", "__qualname__", "__init__", "__getattr__", "__setattr__",
       "__delattr__", "__getitem__", "__setitem__", "_load_db", "save", "load",
       "__dict__", "__weakref__", "__doc__", "config_dir", "filename", "db",
       "_loaded_db"] := rfl
  rw [hkeys]
  decide

/-- Whether the on-disk settings document has a given top-level key. -/
def diskHasKey : DiskState → String → Bool
  | DiskState.content doc, k => alHas doc k
  | _, _ => false

/-- C6: `Storage` keeps no per-instance state — every attribute write goes
through the overridden `__setattr__` onto the class object itself, and
`load` reads `self.__class__.__dict__` — so any two instances A and B
constructed in the same process operate on one shared state, modelled here
as the single `StorageState`; which instance issues each call is
irrelevant.  After any sequence of `save` calls, `load(k)` (from any
instance) returns the most recently saved value for `k`; for a key that
was never bound — neither saved nor among the class's own attributes
(methods and construction-time bookkeeping) — `load` returns Python
`None`, and it never raises. -/
theorem storage_shared_load (cwd : String) (saves : List (String × PyVal)) (k : String)
    (hks : ∀ kv ∈ saves, kv.1 ≠ "_loaded_db") :
    (∀ v, lastSave saves k = some v →
      (storageLoad (runSaves (storageInit cwd storageBaseDict DiskState.missing)
            DiskState.missing saves).1
          (runSaves (storageInit cwd storageBaseDict DiskState.missing)
            DiskState.missing saves).2 k).2 = v) ∧
    (lastSave saves k = Option.none →
      alGet (storageInit cwd storageBaseDict DiskState.missing).classDict k = Option.none →
      (storageLoad (runSaves (storageInit cwd storageBaseDict DiskState.missing)
            DiskState.missing saves).1
          (runSaves (storageInit cwd storageBaseDict DiskState.missing)
            DiskState.missing saves).2 k).2 = PyVal.none) := by
  have hinv0 := (storageInit_facts cwd).1
  have hinvf := runSaves_inv saves _ DiskState.missing hinv0 hks
  have hget := runSaves_classGet saves _ DiskState.missing k hinv0 hks
  have hload : ∀ (st : StorageState) (dk : DiskState), StorageInv st →
      (storageLoad st dk k).2 = (alGet st.classDict k).getD PyVal.none := by
    intro st dk hst
    simp only [storageLoad]
    rw [if_neg (by simp [hst.1])]
  constructor
  · intro v hv
    rw [hload _ _ hinvf, hget, hv]
    rfl
  · intro hv hinit
    rw [hload _ _ hinvf, hget, hv]
    rw [hinit]
    rfl

/-- Concrete instantiation of `storage_shared_load`: after `save("x", 1)`
through one instance, `load("x")` through any instance returns `1`. -/
theorem storage_shared_load_witness :
    lastSave [("x", PyVal.int 1)] "x" = some (PyVal.int 1) ∧
    (storageLoad (runSaves (storageInit "/home/user" storageBaseDict DiskState.missing)
          DiskState.missing [("x", PyVal.int 1)]).1
        (runSaves (storageInit "/home/user" storageBaseDict DiskState.missing)
          DiskState.missing [("x", PyVal.int 1)]).2 "x").2 = PyVal.int 1 :=
  ⟨rfl, (storage_shared_load "/home/user" [("x", PyVal.int 1)] "x"
      (by simp)).1 (PyVal.int 1) rfl⟩

/-- C1 (counterexample): after a single save of the upper-case key `"X"`
from a fresh process, the settings document written to disk contains the
lower-case top-level key `"config_dir"` — `Storage.save` copies the whole
class dict into the store and `_sanatize` does not filter string-valued
bookkeeping attributes, so the claim that only upper-case-named fields are
written is false. -/
theorem settings_file_lowercase_counterexample :
    diskHasKey (runSaves (storageInit "/home/user" storageBaseDict DiskState.missing)
        DiskState.missing [("X", PyVal.int 1)]).2 "config_dir" = true ∧
    "config_dir".data.any (fun c => c.isLower) = true ∧
    pyIsUpper "config_dir" = false :=
  ⟨rfl, rfl, rfl⟩

/-- C1 (amended): the settings file written by `Storage.save`'s sync holds
every class-dict entry that survives `_sanatize` (callables, nested
stores, and the four reserved dunder names are dropped), not only
upper-case fields: after any nonempty sequence of saves of keys other than
the registry's own attribute names, the document contains the lower-case
bookkeeping fields `config_dir`, `filename` and `_loaded_db` alongside
every saved key whose value is serializable. -/
theorem settings_file_contents (cwd : String) (saves : List (String × PyVal))
    (hne : saves ≠ [])
    (hks : ∀ kv ∈ saves,
      kv.1 ∉ (["config_dir", "filename", "db", "_loaded_db"] : List String)) :
    ∃ doc : AList,
      (runSaves (storageInit cwd storageBaseDict DiskState.missing)
        DiskState.missing saves).2 = DiskState.content doc ∧
      alGet doc "config_dir" = some (PyVal.str (cwd ++ "/" ++ CONFIG_DATA_FOLDER)) ∧
      alGet doc "filename" =
        some (PyVal.str (cwd ++ "/" ++ CONFIG_DATA_FOLDER ++ "/" ++ CONFIG_FILE_USER)) ∧
      alGet doc "_loaded_db" = some (PyVal.bool true) ∧
      (∀ k v, lastSave saves k = some v → sanatizeKeep (k, v) = true →
        alGet doc k = some v) := by
  obtain ⟨hinv0, hcd, hfn, hldb⟩ := storageInit_facts cwd
  have hks' : ∀ kv ∈ saves, kv.1 ≠ "_loaded_db" := by
    intro kv h
    have hmem := hks kv h
    simp at hmem
    exact hmem.2.2.2
  obtain ⟨hdisk, hagree⟩ := runSaves_final saves _ DiskState.missing hinv0 hks' hne
  have hget := fun j => runSaves_classGet saves _ DiskState.missing j hinv0 hks'
  have main : ∀ j w, alGet (runSaves (storageInit cwd storageBaseDict DiskState.missing)
        DiskState.missing saves).1.classDict j = some w → sanatizeKeep (j, w) = true →
      alGet (_sanatize (runSaves (storageInit cwd storageBaseDict DiskState.missing)
        DiskState.missing saves).1.db._data) j = some w := by
    intro j w hcls hkeep
    exact alGet_filter_of_keep _ _ _ _ (hagree j w hcls) hkeep
  refine ⟨_, hdisk, ?_, ?_, ?_, ?_⟩
  · refine main _ _ ?_ rfl
    rw [hget "config_dir",
      lastSave_eq_none _ _ (fun kv h => by
        have hmem := hks kv h; simp at hmem; exact hmem.1)]
    exact hcd
  · refine main _ _ ?_ rfl
    rw [hget "filename",
      lastSave_eq_none _ _ (fun kv h => by
        have hmem := hks kv h; simp at hmem; exact hmem.2.1)]
    exact hfn
  · refine main _ _ ?_ rfl
    rw [hget "_loaded_db", lastSave_eq_none _ _ hks']
    exact hldb
  · intro k v hv hkeep
    refine main _ _ ?_ hkeep
    rw [hget k, hv]

/-- Concrete instantiation of `settings_file_contents` for a single save. -/
theorem settings_file_contents_witness :
    ∃ doc : AList,
      (runSaves (storageInit "/home/user" storageBaseDict DiskState.missing)
        DiskState.missing [("X", PyVal.int 1)]).2 = DiskState.content doc ∧
      alGet doc "config_dir" =
        some (PyVal.str ("/home/user" ++ "/" ++ CONFIG_DATA_FOLDER)) ∧
      alGet doc "filename" =
        some (PyVal.str ("/home/user" ++ "/" ++ CONFIG_DATA_FOLDER ++ "/" ++
          CONFIG_FILE_USER)) ∧
      alGet doc "_loaded_db" = some (PyVal.bool true) ∧
      (∀ k v, lastSave [("X", PyVal.int 1)] k = some v → sanatizeKeep (k, v) = true →
        alGet doc k = some v) :=
  settings_file_contents "/home/user" [("X", PyVal.int 1)] (by simp) (by simp)

/-! ### Config-layer lemmas -/

theorem alGet_some_mem (m : AList) (k : String) (v : PyVal) (h : alGet m k = some v) :
    (k, v) ∈ m := by
  induction m with
  | nil => simp [alGet] at h
  | cons kv rest ih =>
    obtain ⟨k₀, v₀⟩ := kv
    by_cases h₀ : k₀ = k
    · subst h₀
      simp [alGet] at h
      simp [h]
    · simp [alGet, h₀] at h
      simp [ih h]

theorem mem_alKeys_of_alGet (m : AList) (k : String) (v : PyVal)
    (h : alGet m k = some v) : k ∈ alKeys m :=
  List.mem_map_of_mem Prod.fst (alGet_some_mem m k v h)

theorem not_mem_alKeys_of_alGet_none (m : AList) (k : String)
    (h : alGet m k = Option.none) : k ∉ alKeys m := by
  rw [alGet_eq_none_iff] at h
  intro hmem
  simp only [alKeys, List.mem_map] at hmem
  obtain ⟨kv, hkv, hfst⟩ := hmem
  exact h kv hkv hfst

theorem storageLoad_noreload (st : StorageState) (d : DiskState) (k : String)
    (hflag : isPyFalse (alGet st.classDict "_loaded_db") = false) :
    storageLoad st d k = (st, (alGet st.classDict k).getD PyVal.none) := by
  simp only [storageLoad]
  rw [if_neg (by simp [hflag])]

theorem pyIsUpper_no_lower (s : String) (h : pyIsUpper s = true) :
    ∀ ch ∈ s.data, ch.isLower = false := by
  unfold pyIsUpper at h
  obtain ⟨-, hall⟩ := Bool.and_eq_true_iff.mp h
  intro ch hch
  have := List.all_eq_true.mp hall ch hch
  simpa using this

theorem alUpdate_nil_get (doc : AList) (j : String) (hdoc : (alKeys doc).Nodup) :
    alGet (alUpdate [] doc) j = alGet doc j := by
  rw [alGet_alUpdate _ _ _ hdoc]
  cases alGet doc j <;> rfl

theorem storageInit_content_classGet (cwd : String) (cls doc : AList) (j : String)
    (hdoc : (alKeys doc).Nodup) :
    alGet (storageInit cwd cls (DiskState.content doc)).classDict j =
      (match alGet doc j with
       | some v => some v
       | Option.none => alGet (storageInit cwd cls DiskState.missing).classDict j) := by
  have hnodupd : (alKeys (alUpdate ([] : AList) doc)).Nodup :=
    nodup_alUpdate _ _ (by simp [alKeys])
  have hload : (ensureLoaded (mkJSONStore (cwd ++ "/" ++ CONFIG_DATA_FOLDER ++ "/" ++
      CONFIG_FILE_USER)) (DiskState.content doc))._data = alUpdate [] doc := by
    rw [ensureLoaded_spec]
    rfl
  simp only [storageInit, storage_load_db]
  rw [hload]
  rw [alGet_alUpdate _ _ _ hnodupd, alUpdate_nil_get doc j hdoc]
  rfl

theorem foldl_copyUpper_get (obj : AList) (ks : List String) (m : AList) (k : String)
    (hnodup : ks.Nodup) :
    alGet (ks.foldl (fun m' k' =>
        if pyIsUpper k' then alSet m' k' ((alGet obj k').getD PyVal.none) else m') m) k =
      (if k ∈ ks ∧ pyIsUpper k = true then some ((alGet obj k).getD PyVal.none)
       else alGet m k) := by
  induction ks generalizing m with
  | nil => simp
  | cons k₀ rest ih =>
    have hnd := List.nodup_cons.mp hnodup
    rw [List.foldl_cons, ih _ hnd.2]
    by_cases hup0 : pyIsUpper k₀ = true
    · rw [if_pos hup0]
      by_cases hk0 : k = k₀
      · subst hk0
        simp [hnd.1, alGet_alSet_self, hup0]
      · have hne := alGet_alSet_ne m k₀ k ((alGet obj k₀).getD PyVal.none)
          (fun h => hk0 h.symm)
        simp [List.mem_cons, hk0, hne]
    · rw [if_neg hup0]
      by_cases hk0 : k = k₀
      · subst hk0
        have hup : pyIsUpper k = false := by simpa using hup0
        simp [hup]
      · simp [List.mem_cons, hk0]

/-- C9: `from_object` raises `ConfigError` exactly when the `client` flag
is `False`; with `client=True` it copies, for every attribute name of the
external object that satisfies `str.isupper`, the external object's
current value (overwriting any existing field of the same name), and
changes no other field. -/
theorem config_from_object_spec (c : ConfigState) (obj : AList) (b : Bool)
    (hclient : alGet c.map "client" = some (PyVal.bool b))
    (hobj : (alKeys obj).Nodup) :
    (b = false → configFromObject c obj =
      Except.error (PyErr.configError "This object is not configured for client use")) ∧
    (b = true → ∃ c', configFromObject c obj = Except.ok c' ∧ c'.storage = c.storage ∧
      (∀ k v, alGet obj k = some v → pyIsUpper k = true → alGet c'.map k = some v) ∧
      (∀ k, alGet obj k = Option.none → alGet c'.map k = alGet c.map k) ∧
      (∀ k, pyIsUpper k = false → alGet c'.map k = alGet c.map k)) := by
  constructor
  · intro hb; subst hb
    unfold configFromObject
    rw [if_pos (by simp [hclient, isPyFalse])]
  · intro hb; subst hb
    unfold configFromObject
    rw [if_neg (by simp [hclient, isPyFalse])]
    have hmap : ∀ k, alGet ((pyDir obj).foldl
        (fun m k' => if pyIsUpper k' then alSet m k' ((alGet obj k').getD PyVal.none) else m)
        c.map) k =
        (if k ∈ alKeys obj ∧ pyIsUpper k = true then some ((alGet obj k).getD PyVal.none)
         else alGet c.map k) :=
      fun k => foldl_copyUpper_get obj (alKeys obj) c.map k hobj
    refine ⟨_, rfl, rfl, ?_, ?_, ?_⟩
    · intro k v hk hup
      refine (hmap k).trans ?_
      rw [if_pos ⟨mem_alKeys_of_alGet obj k v hk, hup⟩, hk]
      rfl
    · intro k hk
      refine (hmap k).trans ?_
      rw [if_neg (fun hc => (not_mem_alKeys_of_alGet_none obj k hk) hc.1)]
    · intro k hk
      refine (hmap k).trans ?_
      rw [if_neg (fun hc => by rw [hk] at hc; exact absurd hc.2 (by simp))]

/-- Concrete instantiation of `config_from_object_spec`: on a
client-configured instance, the upper-case attribute is copied and the
lower-case one is not. -/
theorem config_from_object_witness :
    ∃ c', configFromObject
        { map := [("client", PyVal.bool true)], storage := Option.none }
        [("APP_NAME", PyVal.str "Acme"), ("ignore_me", PyVal.int 7)] =
        Except.ok c' ∧
      c'.storage = Option.none ∧
      (∀ k v, alGet [("APP_NAME", PyVal.str "Acme"), ("ignore_me", PyVal.int 7)] k =
          some v → pyIsUpper k = true → alGet c'.map k = some v) ∧
      (∀ k, alGet [("APP_NAME", PyVal.str "Acme"), ("ignore_me", PyVal.int 7)] k =
          Option.none → alGet c'.map k =
          alGet [("client", PyVal.bool true)] k) ∧
      (∀ k, pyIsUpper k = false → alGet c'.map k =
          alGet [("client", PyVal.bool true)] k) :=
  (config_from_object_spec
    { map := [("client", PyVal.bool true)], storage := Option.none }
    [("APP_NAME", PyVal.str "Acme"), ("ignore_me", PyVal.int 7)] true rfl
    (by decide)).2 rfl

/-- Names bound in the `Config` class body (its methods); instance
attribute lookup falls back to them when the name is not in the instance
dict, which — because of `self.__dict__ = self` — is the mapping itself. -/
def configClassAttrs : List String :=
  ["__postinit__", "from_object", "_load_config", "save_config", "_write_config_py"]

/-- Python attribute read `config.name`: the instance `__dict__` (aliased
to the mapping) first, then the class attributes, else `AttributeError`. -/
def configGetAttr (c : ConfigState) (name : String) : Except PyErr PyVal :=
  match alGet c.map name with
  | some v => Except.ok v
  | Option.none =>
    if configClassAttrs.contains name then Except.ok (PyVal.callable name)
    else Except.error (PyErr.attributeError name)

/-- Python item read `config[name]`: the dict itself, else `KeyError`. -/
def configGetItem (c : ConfigState) (name : String) : Except PyErr PyVal :=
  match alGet c.map name with
  | some v => Except.ok v
  | Option.none => Except.error (PyErr.keyError name)

/-- Python attribute write `config.name = v`: lands in the instance
`__dict__`, which `Config.__init__` aliased to the dict itself. -/
def configSetAttr (c : ConfigState) (name : String) (v : PyVal) : ConfigState :=
  { c with map := alSet c.map name v }

/-- Python item write `config[name] = v`: plain dict assignment. -/
def configSetItem (c : ConfigState) (name : String) (v : PyVal) : ConfigState :=
  { c with map := alSet c.map name v }

theorem mkConfig_noload_map (kwargs : AList) (cwd : String) (cls : AList) (d : DiskState)
    (hload : alGet kwargs "load_config" = Option.none) :
    ∃ c, mkConfig kwargs cwd cls d = Except.ok c ∧
      c.map = alSet (alSet (alSet (alUpdate kwargs configTemplate)
        "load_config" (PyVal.bool false)) "client"
        ((alGet kwargs "client").getD (PyVal.bool false))) "db"
        (if isPyFalse (some ((alGet kwargs "client").getD (PyVal.bool false)))
         then PyVal.storageRef else PyVal.none) := by
  simp only [mkConfig, hload, Option.getD_none]
  by_cases hcl : isPyFalse (some ((alGet kwargs "client").getD (PyVal.bool false))) = true
  · rw [if_pos hcl, if_neg (by simp [isPyTrue]), if_pos hcl]
    exact ⟨_, rfl, rfl⟩
  · rw [if_neg hcl, if_neg hcl]
    exact ⟨_, rfl, rfl⟩

/-- C10: because `Config.__init__` sets `self.__dict__ = self`, attribute
writes and item writes are the same operation on the one shared mapping,
and attribute reads agree with item reads on every present key; the
bookkeeping names `load_config`, `client` and `db` assigned during
construction therefore appear as items of the mapping itself, and the
persistence export excludes a key exactly when it fails the upper-case
filter — there is no other exclusion mechanism. -/
theorem config_attr_item_unified (kwargs : AList) (cwd : String) (cls : AList)
    (d : DiskState) (hload : alGet kwargs "load_config" = Option.none) :
    (∀ c name v, configSetAttr c name v = configSetItem c name v) ∧
    (∀ c name v, alGet c.map name = some v →
      configGetAttr c name = Except.ok v ∧ configGetItem c name = Except.ok v) ∧
    (∃ c, mkConfig kwargs cwd cls d = Except.ok c ∧
      (alGet c.map "load_config").isSome = true ∧
      (alGet c.map "client").isSome = true ∧
      (alGet c.map "db").isSome = true) ∧
    (∀ c k, alGet (configSaveOut c) k =
      if pyIsUpper k then alGet c.map k else Option.none) := by
  refine ⟨fun c name v => rfl, ?_, ?_, ?_⟩
  · intro c name v h
    constructor <;> simp [configGetAttr, configGetItem, h]
  · obtain ⟨c, hc, hcm⟩ := mkConfig_noload_map kwargs cwd cls d hload
    refine ⟨c, hc, ?_, ?_, ?_⟩
    · rw [hcm, alGet_alSet_ne _ _ _ _ (by decide), alGet_alSet_ne _ _ _ _ (by decide),
        alGet_alSet_self]
      rfl
    · rw [hcm, alGet_alSet_ne _ _ _ _ (by decide), alGet_alSet_self]
      rfl
    · rw [hcm, alGet_alSet_self]
      rfl
  · intro c k
    exact alGet_filter_keyPred (fun j => pyIsUpper j) c.map k

/-- Concrete instantiation of `config_attr_item_unified`: a default
`Config()` has `load_config`, `client` and `db` as items of its own
mapping. -/
theorem config_attr_item_unified_witness :
    ∃ c, mkConfig [] "/home/user" storageBaseDict DiskState.missing = Except.ok c ∧
      (alGet c.map "load_config").isSome = true ∧
      (alGet c.map "client").isSome = true ∧
      (alGet c.map "db").isSome = true :=
  (config_attr_item_unified [] "/home/user" storageBaseDict DiskState.missing rfl).2.2.1

/-- C2 (counterexample): with the key-material record present on the
registry but holding no `'client'` entry (the nested public-key path is
absent), `_write_config_py` raises `KeyError('client')` instead of
substituting a null public key — the code only guards `keypack_data is
None`, not the nested indexing. -/
theorem write_config_py_counterexample :
    writeConfigPy
      { map := configTemplate,
        storage := some (runSaves (storageInit "/home/user" storageBaseDict
          DiskState.missing) DiskState.missing [("keypack", PyVal.dict [])]).1 }
      (runSaves (storageInit "/home/user" storageBaseDict DiskState.missing)
        DiskState.missing [("keypack", PyVal.dict [])]).2
      = Except.error (PyErr.keyError "client") := rfl

/-- C2 (amended): when the key-material record is absent,
`_write_config_py` substitutes Python `None` for the public key and
completes; but when the record is present and the nested
`['client']['offline_public']` path is absent, the `KeyError` propagates
out of the generation. -/
theorem write_config_py_keypack (c : ConfigState) (st : StorageState) (d : DiskState)
    (hccp : alHas c.map "CLIENT_CONFIG_PATH" = true)
    (hst : c.storage = some st)
    (hflag : isPyFalse (alGet st.classDict "_loaded_db") = false) :
    (alGet st.classDict CONFIG_DB_KEY_KEYPACK = Option.none →
      writeConfigPy c d = Except.ok (writeConfigPyContent c.map PyVal.none)) ∧
    (∀ entries, alGet st.classDict CONFIG_DB_KEY_KEYPACK = some (PyVal.dict entries) →
      alGet entries "client" = Option.none →
      writeConfigPy c d = Except.error (PyErr.keyError "client")) ∧
    (∀ entries ce, alGet st.classDict CONFIG_DB_KEY_KEYPACK = some (PyVal.dict entries) →
      alGet entries "client" = some (PyVal.dict ce) →
      alGet ce "offline_public" = Option.none →
      writeConfigPy c d = Except.error (PyErr.keyError "offline_public")) := by
  refine ⟨?_, ?_, ?_⟩
  · intro hkp
    simp only [writeConfigPy, hst]
    rw [storageLoad_noreload st d _ hflag]
    simp only [hkp, Option.getD_none]
    rw [if_pos hccp]
  · intro entries hkp hcl
    simp only [writeConfigPy, hst]
    rw [storageLoad_noreload st d _ hflag]
    simp only [hkp, Option.getD_some, hcl]
  · intro entries ce hkp hcl hop
    simp only [writeConfigPy, hst]
    rw [storageLoad_noreload st d _ hflag]
    simp only [hkp, Option.getD_some, hcl, hop]

/-- Concrete instantiation of `write_config_py_keypack`: with no key-pack
record saved, artifact generation completes with a `None` public key. -/
theorem write_config_py_keypack_witness :
    writeConfigPy
      { map := configTemplate,
        storage := some (storageInit "/home/user" storageBaseDict DiskState.missing) }
      DiskState.missing =
      Except.ok (writeConfigPyContent configTemplate PyVal.none) :=
  (write_config_py_keypack
    { map := configTemplate,
      storage := some (storageInit "/home/user" storageBaseDict DiskState.missing) }
    (storageInit "/home/user" storageBaseDict DiskState.missing) DiskState.missing
    rfl rfl rfl).1 rfl

/-- C7: `save_config` filters the mapping through `str.isupper` before
persisting, so the record stored under the fixed settings key consists of
exactly the upper-case items: no key of the persisted record has a
lower-case character, and fields named `_internal` or `client` (or the
bookkeeping items `load_config` and `db`) are never part of it. -/
theorem save_config_record_uppercase (c : ConfigState) (st : StorageState) (d : DiskState)
    (hst : c.storage = some st)
    (hflag : isPyFalse (alGet st.classDict "_loaded_db") = false)
    (hloaded : st.db._data_from_disk_loaded = true)
    (hnodup : (alKeys st.classDict).Nodup) :
    ∃ doc : AList,
      (configSaveConfig c d).2 = DiskState.content doc ∧
      alGet doc CONFIG_DB_KEY_APP_CONFIG = some (PyVal.dict (configSaveOut c)) ∧
      (∀ kv ∈ configSaveOut c, pyIsUpper kv.1 = true) ∧
      (∀ kv ∈ configSaveOut c, ∀ ch ∈ kv.1.data, ch.isLower = false) ∧
      alGet (configSaveOut c) "_internal" = Option.none ∧
      alGet (configSaveOut c) "client" = Option.none := by
  have hsave := storageSave_spec st d CONFIG_DB_KEY_APP_CONFIG
    (PyVal.dict (configSaveOut c)) hflag hloaded
  have hdisk : (configSaveConfig c d).2 =
      DiskState.content (_sanatize (alUpdate st.db._data
        (alSet st.classDict CONFIG_DB_KEY_APP_CONFIG (PyVal.dict (configSaveOut c))))) := by
    simp only [configSaveConfig, hst]
    rw [hsave]
  refine ⟨_, hdisk, ?_, ?_, ?_, ?_, ?_⟩
  · refine alGet_filter_of_keep _ _ _ _ ?_ rfl
    rw [alGet_alUpdate _ _ _ (nodup_alSet _ _ _ hnodup), alGet_alSet_self]
  · intro kv hkv
    exact (List.mem_filter.mp hkv).2
  · intro kv hkv
    exact pyIsUpper_no_lower _ ((List.mem_filter.mp hkv).2)
  · rw [show configSaveOut c = c.map.filter (fun kv => pyIsUpper kv.1) from rfl,
      alGet_filter_keyPred]
    rfl
  · rw [show configSaveOut c = c.map.filter (fun kv => pyIsUpper kv.1) from rfl,
      alGet_filter_keyPred]
    rfl

/-- Concrete instantiation of `save_config_record_uppercase`. -/
theorem save_config_record_uppercase_witness :
    ∃ doc : AList,
      (configSaveConfig
        { map := [("APP_NAME", PyVal.str "Acme"), ("client", PyVal.bool false),
                  ("_internal", PyVal.int 0)],
          storage := some (storageInit "/home/user" storageBaseDict DiskState.missing) }
        DiskState.missing).2 = DiskState.content doc ∧
      alGet doc CONFIG_DB_KEY_APP_CONFIG = some (PyVal.dict (configSaveOut
        { map := [("APP_NAME", PyVal.str "Acme"), ("client", PyVal.bool false),
                  ("_internal", PyVal.int 0)],
          storage := some (storageInit "/home/user" storageBaseDict DiskState.missing) })) ∧
      (∀ kv ∈ configSaveOut
        { map := [("APP_NAME", PyVal.str "Acme"), ("client", PyVal.bool false),
                  ("_internal", PyVal.int 0)],
          storage := some (storageInit "/home/user" storageBaseDict DiskState.missing) },
        pyIsUpper kv.1 = true) ∧
      (∀ kv ∈ configSaveOut
        { map := [("APP_NAME", PyVal.str "Acme"), ("client", PyVal.bool false),
                  ("_internal", PyVal.int 0)],
          storage := some (storageInit "/home/user" storageBaseDict DiskState.missing) },
        ∀ ch ∈ kv.1.data, ch.isLower = false) ∧
      alGet (configSaveOut
        { map := [("APP_NAME", PyVal.str "Acme"), ("client", PyVal.bool false),
                  ("_internal", PyVal.int 0)],
          storage := some (storageInit "/home/user" storageBaseDict DiskState.missing) })
        "_internal" = Option.none ∧
      alGet (configSaveOut
        { map := [("APP_NAME", PyVal.str "Acme"), ("client", PyVal.bool false),
                  ("_internal", PyVal.int 0)],
          storage := some (storageInit "/home/user" storageBaseDict DiskState.missing) })
        "client" = Option.none :=
  save_config_record_uppercase
    { map := [("APP_NAME", PyVal.str "Acme"), ("client", PyVal.bool false),
              ("_internal", PyVal.int 0)],
      storage := some (storageInit "/home/user" storageBaseDict DiskState.missing) }
    (storageInit "/home/user" storageBaseDict DiskState.missing) DiskState.missing
    rfl rfl rfl (by decide)

/-- C3: round trip.  Saving a `Config` over mapping `m1` (whose upper-case
projection is the settings mapping, and which — like every constructed
`Config` — still carries the template keys) and then constructing a fresh
`Config(load_config=True)` in a new process over the written file yields
exactly the same upper-case key/value pairs, except `DATA_DIR`, which is
set to the loading process's working directory regardless of any saved
value. -/
theorem save_load_roundtrip (cwd1 cwd2 : String) (m1 : AList)
    (hnodup1 : (alKeys m1).Nodup)
    (htmpl : ∀ kv ∈ configTemplate, (alGet m1 kv.1).isSome = true) :
    ∃ c2, mkConfig [("load_config", PyVal.bool true)] cwd2 storageBaseDict
        (configSaveConfig
          { map := m1,
            storage := some (storageInit cwd1 storageBaseDict DiskState.missing) }
          DiskState.missing).2 = Except.ok c2 ∧
      (∀ k, pyIsUpper k = true → k ≠ "DATA_DIR" →
        alGet c2.map k = alGet (configSaveOut
          { map := m1,
            storage := some (storageInit cwd1 storageBaseDict DiskState.missing) }) k) ∧
      alGet c2.map "DATA_DIR" = some (PyVal.str cwd2) := by
  obtain ⟨hinv0, -, -, hldb0⟩ := storageInit_facts cwd1
  generalize hout : configSaveOut
    { map := m1, storage := some (storageInit cwd1 storageBaseDict DiskState.missing) }
    = out
  have hsave := storageSave_spec (storageInit cwd1 storageBaseDict DiskState.missing)
    DiskState.missing CONFIG_DB_KEY_APP_CONFIG (PyVal.dict out) hinv0.1 hinv0.2.1
  have hdisk : (configSaveConfig
      { map := m1,
        storage := some (storageInit cwd1 storageBaseDict DiskState.missing) }
      DiskState.missing).2 =
      DiskState.content (_sanatize (alUpdate
        (storageInit cwd1 storageBaseDict DiskState.missing).db._data
        (alSet (storageInit cwd1 storageBaseDict DiskState.missing).classDict
          CONFIG_DB_KEY_APP_CONFIG (PyVal.dict out)))) := by
    simp only [configSaveConfig]
    rw [hout, hsave]
  have hnodup_out : (alKeys out).Nodup := by
    rw [← hout]
    exact nodup_filter _ _ hnodup1
  have hout_get : ∀ k, pyIsUpper k = true → alGet out k = alGet m1 k := by
    intro k hup
    rw [← hout,
      show configSaveOut
        { map := m1,
          storage := some (storageInit cwd1 storageBaseDict DiskState.missing) } =
        m1.filter (fun kv => pyIsUpper kv.1) from rfl,
      alGet_filter_keyPred, if_pos hup]
  have key : ∀ doc1 : AList, (alKeys doc1).Nodup →
      alGet doc1 CONFIG_DB_KEY_APP_CONFIG = some (PyVal.dict out) →
      alGet doc1 "_loaded_db" = some (PyVal.bool true) →
      ∃ c2, mkConfig [("load_config", PyVal.bool true)] cwd2 storageBaseDict
          (DiskState.content doc1) = Except.ok c2 ∧
        (∀ k, pyIsUpper k = true → k ≠ "DATA_DIR" → alGet c2.map k = alGet out k) ∧
        alGet c2.map "DATA_DIR" = some (PyVal.str cwd2) := by
    intro doc1 hnodupd hkc hkl
    have hcg := fun j => storageInit_content_classGet cwd2 storageBaseDict doc1 j hnodupd
    have hflag2 : isPyFalse (alGet (storageInit cwd2 storageBaseDict
        (DiskState.content doc1)).classDict "_loaded_db") = false := by
      rw [hcg "_loaded_db", hkl]
      rfl
    have hrec : alGet (storageInit cwd2 storageBaseDict
        (DiskState.content doc1)).classDict CONFIG_DB_KEY_APP_CONFIG =
        some (PyVal.dict out) := by
      rw [hcg CONFIG_DB_KEY_APP_CONFIG, hkc]
    have hmk : mkConfig [("load_config", PyVal.bool true)] cwd2 storageBaseDict
        (DiskState.content doc1) =
        configLoadConfig
          { map := alSet (alSet (alSet (alUpdate [("load_config", PyVal.bool true)]
              configTemplate) "load_config" (PyVal.bool true)) "client" (PyVal.bool false))
              "db" PyVal.storageRef,
            storage := some (storageInit cwd2 storageBaseDict (DiskState.content doc1)) }
          (DiskState.content doc1) cwd2 := rfl
    have hcl : configLoadConfig
        { map := alSet (alSet (alSet (alUpdate [("load_config", PyVal.bool true)]
            configTemplate) "load_config" (PyVal.bool true)) "client" (PyVal.bool false))
            "db" PyVal.storageRef,
          storage := some (storageInit cwd2 storageBaseDict (DiskState.content doc1)) }
        (DiskState.content doc1) cwd2 =
        Except.ok
          { map := alSet (alUpdate (alSet (alSet (alSet
              (alUpdate [("load_config", PyVal.bool true)] configTemplate)
              "load_config" (PyVal.bool true)) "client" (PyVal.bool false))
              "db" PyVal.storageRef) out) "DATA_DIR" (PyVal.str cwd2),
            storage := some (storageInit cwd2 storageBaseDict (DiskState.content doc1)) } := by
      simp only [configLoadConfig]
      rw [storageLoad_noreload _ _ _ hflag2]
      simp only [hrec, Option.getD_some]
    refine ⟨_, hmk.trans hcl, ?_, ?_⟩
    · intro k hup hkd
      show alGet (alSet (alUpdate (alSet (alSet (alSet
          (alUpdate [("load_config", PyVal.bool true)] configTemplate)
          "load_config" (PyVal.bool true)) "client" (PyVal.bool false))
          "db" PyVal.storageRef) out) "DATA_DIR" (PyVal.str cwd2)) k = alGet out k
      rw [alGet_alSet_ne _ _ _ _ (fun h => hkd h.symm)]
      rw [alGet_alUpdate _ _ _ hnodup_out]
      cases houtk : alGet out k with
      | some v => rfl
      | none =>
        have hkd2 : k ≠ "db" := fun h => by rw [h] at hup; exact absurd hup (by decide)
        have hkc2 : k ≠ "client" := fun h => by
          rw [h] at hup; exact absurd hup (by decide)
        have hkl2 : k ≠ "load_config" := fun h => by
          rw [h] at hup; exact absurd hup (by decide)
        rw [alGet_alSet_ne _ _ _ _ (Ne.symm hkd2),
          alGet_alSet_ne _ _ _ _ (Ne.symm hkc2),
          alGet_alSet_ne _ _ _ _ (Ne.symm hkl2)]
        rw [alGet_alUpdate _ _ _ (by decide : (alKeys configTemplate).Nodup)]
        cases htk : alGet configTemplate k with
        | some tv =>
          exfalso
          have hm1 : alGet m1 k = Option.none := by
            rw [← hout_get k hup]
            exact houtk
          have hmem := htmpl (k, tv) (alGet_some_mem _ _ _ htk)
          rw [hm1] at hmem
          simp at hmem
        | none =>
          simp [alGet, Ne.symm hkl2]
    · show alGet (alSet (alUpdate (alSet (alSet (alSet
          (alUpdate [("load_config", PyVal.bool true)] configTemplate)
          "load_config" (PyVal.bool true)) "client" (PyVal.bool false))
          "db" PyVal.storageRef) out) "DATA_DIR" (PyVal.str cwd2)) "DATA_DIR" =
        some (PyVal.str cwd2)
      rw [alGet_alSet_self]
  have hnodup_cls1 : (alKeys (alSet
      (storageInit cwd1 storageBaseDict DiskState.missing).classDict
      CONFIG_DB_KEY_APP_CONFIG (PyVal.dict out))).Nodup :=
    nodup_alSet _ _ _ hinv0.2.2
  have hnodupd : (alKeys (_sanatize (alUpdate
      (storageInit cwd1 storageBaseDict DiskState.missing).db._data
      (alSet (storageInit cwd1 storageBaseDict DiskState.missing).classDict
        CONFIG_DB_KEY_APP_CONFIG (PyVal.dict out))))).Nodup := by
    refine nodup_filter _ _ (nodup_alUpdate _ _ ?_)
    rw [show (storageInit cwd1 storageBaseDict DiskState.missing).db._data =
      ([] : AList) from rfl]
    simp [alKeys]
  have hkc : alGet (_sanatize (alUpdate
      (storageInit cwd1 storageBaseDict DiskState.missing).db._data
      (alSet (storageInit cwd1 storageBaseDict DiskState.missing).classDict
        CONFIG_DB_KEY_APP_CONFIG (PyVal.dict out))))
      CONFIG_DB_KEY_APP_CONFIG = some (PyVal.dict out) := by
    refine alGet_filter_of_keep _ _ _ _ ?_ rfl
    rw [alGet_alUpdate _ _ _ hnodup_cls1, alGet_alSet_self]
  have hkl : alGet (_sanatize (alUpdate
      (storageInit cwd1 storageBaseDict DiskState.missing).db._data
      (alSet (storageInit cwd1 storageBaseDict DiskState.missing).classDict
        CONFIG_DB_KEY_APP_CONFIG (PyVal.dict out))))
      "_loaded_db" = some (PyVal.bool true) := by
    refine alGet_filter_of_keep _ _ _ _ ?_ rfl
    rw [alGet_alUpdate _ _ _ hnodup_cls1,
      alGet_alSet_ne _ _ _ _ (by decide), hldb0]
  rw [hdisk]
  exact key _ hnodupd hkc hkl

/-- Concrete instantiation of `save_load_roundtrip`: saving the default
template from one process and loading it from a fresh process yields a
config whose `DATA_DIR` is the loading process's working directory. -/
theorem save_load_roundtrip_witness :
    (match mkConfig [("load_config", PyVal.bool true)] "/new" storageBaseDict
        (configSaveConfig
          { map := configTemplate,
            storage := some (storageInit "/old" storageBaseDict DiskState.missing) }
          DiskState.missing).2 with
     | Except.ok c2 => alGet c2.map "DATA_DIR" = some (PyVal.str "/new") ∧
         alGet c2.map "APP_NAME" = alGet (configSaveOut
           { map := configTemplate,
             storage := some (storageInit "/old" storageBaseDict DiskState.missing) })
           "APP_NAME"
     | Except.error _ => False) := by
  obtain ⟨c2, h1, h2, h3⟩ := save_load_roundtrip "/old" "/new" configTemplate
    (by decide) (by decide)
  rw [h1]
  exact ⟨h3, h2 "APP_NAME" (by decide) (by decide)⟩

end PyUpdaterSpec
